import Mathlib

/-!
Verification of `packages/back-end/src/python/bayesian/dists.py`.

Shallow embedding over ℝ.  The numeric-library primitives consumed by the
module (scipy's distribution `cdf`/`mean`, `digamma`, `polygamma`, and the
quadrature root generators `roots_hermitenorm` / `roots_sh_jacobi`) are
external oracles; they appear here as function parameters, with their
contracts stated explicitly where a claim depends on them.
-/

namespace Dists

/-- `EPSILON = 1e-04` from the module header. -/
def EPSILON : ℝ := 1e-4

/-- Python `int(n)` on a rational: truncation toward zero. -/
def pyInt (q : ℚ) : ℤ := Int.tdiv q.num q.den

/-- A distribution family as used by the shared `risk` algorithm: a
quadrature-rule builder plus the scipy distribution's cdf and mean
(`cls.gq`, `cls.dist.cdf`, `cls.dist.mean`). -/
structure Family where
  gq : ℚ → ℝ → ℝ → List ℝ × List ℝ
  cdf : ℝ → ℝ → ℝ → ℝ
  mean : ℝ → ℝ → ℝ

/-- `sum(nodes * cdf(nodes, p1, p2) * weights)`: elementwise product of the
node array, the cdf evaluated at the nodes, and the weight array, summed. -/
def gqTerm (nodes weights : List ℝ) (cdf : ℝ → ℝ) : ℝ :=
  ((nodes.zip weights).map (fun p => p.1 * cdf p.1 * p.2)).sum

/-- `BayesABDist.risk` (dists.py lines 50-67):
nodes/weights for each arm from `gq`, then
`gq = sum(nodes_a * cdf(nodes_a, b1, b2) * weights_a)
    + sum(nodes_b * cdf(nodes_b, a1, a2) * weights_b)`,
then `out = gq - dist.mean((a_par1, b_par1), (a_par2, b_par2))`, the
vectorized mean producing the pair (mean_A, mean_B). -/
def risk (F : Family) (a1 a2 b1 b2 : ℝ) (n : ℚ) : ℝ × ℝ :=
  let ga := F.gq n a1 a2
  let gb := F.gq n b1 b2
  let est := gqTerm ga.1 ga.2 (fun x => F.cdf x b1 b2) +
             gqTerm gb.1 gb.2 (fun x => F.cdf x a1 a2)
  (est - F.mean a1 a2, est - F.mean b1 b2)

namespace Beta

/-- `Beta.posterior` (dists.py lines 73-77): `a = prior[0] + data[0]`,
`b = prior[1] + data[1] - data[0]`, with prior = (a, b) and
data = (successes, trials). -/
def posterior (prior data : ℝ × ℝ) : ℝ × ℝ :=
  (prior.1 + data.1, prior.2 + data.2 - data.1)

/-- `Beta.moments` (dists.py lines 79-87), parameterized by the scipy
oracles `digamma` (ψ) and `polygamma(1, ·)` (ψ1).  The `log` branch returns
the ordinary Beta moments; the non-log branch the digamma/polygamma ones,
exactly as coded. -/
noncomputable def moments (ψ ψ1 : ℝ → ℝ) (par1 par2 : ℝ) (log : Bool) : ℝ × ℝ :=
  if log then
    (par1 / (par1 + par2), par1 * par2 / ((par1 + par2) ^ 2 * (par1 + par2 + 1)))
  else
    (ψ par1 - ψ (par1 + par2), ψ1 par1 - ψ1 (par1 + par2))

/-- `Beta.gq` (dists.py lines 89-92): `roots_sh_jacobi(int(n), par1 + par2 - 1,
par1, False)`, the root generator being the oracle `jac`. -/
def gq (jac : ℕ → ℝ → ℝ → List ℝ × List ℝ) (n : ℚ) (par1 par2 : ℝ) :
    List ℝ × List ℝ :=
  jac (pyInt n).toNat (par1 + par2 - 1) par1

/-- The `Beta` family as passed to the shared `risk`, with the scipy beta
cdf and mean supplied as oracles. -/
def family (jac : ℕ → ℝ → ℝ → List ℝ × List ℝ) (bcdf : ℝ → ℝ → ℝ → ℝ)
    (bmean : ℝ → ℝ → ℝ) : Family :=
  { gq := gq jac, cdf := bcdf, mean := bmean }

end Beta

namespace Norm

/-- `Norm.posterior` (dists.py lines 98-106), prior/data = (loc, scale, weight):
`inv_var_0 = prior[2]/prior[1]^2`, `inv_var_d = data[2]/data[1]^2`,
`var = 1/(inv_var_0 + inv_var_d)`, loc and scale as coded. -/
noncomputable def posterior (prior data : ℝ × ℝ × ℝ) : ℝ × ℝ :=
  let inv_var_0 := prior.2.2 / prior.2.1 ^ 2
  let inv_var_d := data.2.2 / data.2.1 ^ 2
  let var := 1 / (inv_var_0 + inv_var_d)
  (var * (inv_var_0 * prior.1 + inv_var_d * data.1), Real.sqrt var)

/-- `Norm.moments` (dists.py lines 108-118), parameterized by the scipy
oracle `norm.cdf`.  Besides the (mean, var) pair it records, as a
proposition, whether the `warn` branch fired: for scalar parameters
`np.sum(norm.cdf(0, par1, par2) > EPSILON)` is truthy exactly when
`norm.cdf(0, par1, par2) > EPSILON`. -/
noncomputable def moments (ncdf : ℝ → ℝ → ℝ → ℝ) (par1 par2 : ℝ) (log : Bool) :
    (ℝ × ℝ) × Prop :=
  if log then
    ((Real.log par1, (par2 / par1) ^ 2), EPSILON < ncdf 0 par1 par2)
  else
    ((par1, par2 ^ 2), False)

/-- `Norm.gq` (dists.py lines 120-125): `x, w, m = roots_hermitenorm(int(n),
True)` (oracle `her`), then `x = par2 * x + par1` and `w /= m`. -/
noncomputable def gq (her : ℕ → List ℝ × List ℝ × ℝ) (n : ℚ) (par1 par2 : ℝ) :
    List ℝ × List ℝ :=
  let r := her (pyInt n).toNat
  (r.1.map (fun t => par2 * t + par1), r.2.1.map (fun t => t / r.2.2))

/-- The `Norm` family as passed to the shared `risk`, with the scipy normal
cdf and mean supplied as oracles. -/
noncomputable def family (her : ℕ → List ℝ × List ℝ × ℝ) (ncdf : ℝ → ℝ → ℝ → ℝ)
    (nmean : ℝ → ℝ → ℝ) : Family :=
  { gq := gq her, cdf := ncdf, mean := nmean }

end Norm

/-- Modelled from the spec: contract of the shifted-Jacobi root generator
`roots_sh_jacobi` (local module `orthogonal`, not present under src, called
with `mu=False`).  Per the spec it returns exactly `n` nodes and `n`
weights, the weights usable directly as a discrete approximation of a
probability measure, i.e. summing to 1. -/
def JacContract (jac : ℕ → ℝ → ℝ → List ℝ × List ℝ) : Prop :=
  ∀ n a b, 0 < n → (jac n a b).1.length = n ∧ (jac n a b).2.length = n ∧
    (jac n a b).2.sum = 1

/-- Contract of the scipy oracle `roots_hermitenorm(n, True)`: exactly `n`
nodes and `n` weights together with the rule's total mass `m`, the sum of
the weights, which is positive. -/
def HermContract (her : ℕ → List ℝ × List ℝ × ℝ) : Prop :=
  ∀ n, 0 < n → (her n).1.length = n ∧ (her n).2.1.length = n ∧
    (her n).2.1.sum = (her n).2.2 ∧ 0 < (her n).2.2

/-! ### Helper lemmas -/

lemma pyInt_natCast (n : ℕ) : pyInt (n : ℚ) = n := by
  simp [pyInt]

lemma pyInt_intCast (z : ℤ) : pyInt (z : ℚ) = z := by
  simp [pyInt]

lemma sum_map_div (l : List ℝ) (c : ℝ) :
    (l.map (fun t => t / c)).sum = l.sum / c := by
  induction l with
  | nil => simp
  | cons x xs ih => simp [ih, add_div]

/-! ### Claims -/

/-- C2: Beta `posterior` returns exactly
(a_prior + successes, b_prior + trials - successes); in particular
posterior((1,1), (50,100)) = (51, 51). -/
theorem beta_posterior_formula :
    (∀ ap bp s t : ℝ, Beta.posterior (ap, bp) (s, t) = (ap + s, bp + t - s)) ∧
    Beta.posterior (1, 1) (50, 100) = (51, 51) := by
  refine ⟨fun ap bp s t => rfl, ?_⟩
  simp only [Beta.posterior]
  norm_num

/-- C8: for a Beta prior with both parameters strictly positive and data with
trials ≥ successes ≥ 0, both posterior parameters are strictly positive. -/
theorem beta_posterior_pos (ap bp s t : ℝ) (hap : 0 < ap) (hbp : 0 < bp)
    (hs : 0 ≤ s) (hst : s ≤ t) :
    0 < (Beta.posterior (ap, bp) (s, t)).1 ∧
    0 < (Beta.posterior (ap, bp) (s, t)).2 := by
  constructor <;> simp only [Beta.posterior] <;> linarith

/-- Witness for C8 at prior (1,1), data (50,100). -/
theorem beta_posterior_pos_witness :
    (0:ℝ) < 1 ∧ (0:ℝ) ≤ 50 ∧ (50:ℝ) ≤ 100 ∧
    (0 < (Beta.posterior (1, 1) (50, 100)).1 ∧
     0 < (Beta.posterior (1, 1) (50, 100)).2) :=
  ⟨by norm_num, by norm_num, by norm_num,
    beta_posterior_pos 1 1 50 100 (by norm_num) (by norm_num) (by norm_num)
      (by norm_num)⟩

/-- C4: Beta `moments` with log=False returns the digamma/polygamma pair and
with log=True the ordinary Beta mean/variance, for valid parameters. -/
theorem beta_moments_formula (ψ ψ1 : ℝ → ℝ) (par1 par2 : ℝ)
    (h1 : 0 < par1) (h2 : 0 < par2) :
    Beta.moments ψ ψ1 par1 par2 false =
      (ψ par1 - ψ (par1 + par2), ψ1 par1 - ψ1 (par1 + par2)) ∧
    Beta.moments ψ ψ1 par1 par2 true =
      (par1 / (par1 + par2),
       par1 * par2 / ((par1 + par2) ^ 2 * (par1 + par2 + 1))) :=
  ⟨rfl, rfl⟩

/-- Witness for C4 with the identity standing in for the digamma oracles,
at parameters (2, 3). -/
theorem beta_moments_formula_witness :
    (0:ℝ) < 2 ∧ (0:ℝ) < 3 ∧
    (Beta.moments id id 2 3 false = (id 2 - id (2 + 3), id 2 - id (2 + 3)) ∧
     Beta.moments id id 2 3 true =
       ((2:ℝ) / (2 + 3), 2 * 3 / ((2 + 3) ^ 2 * (2 + 3 + 1)))) :=
  ⟨by norm_num, by norm_num,
    beta_moments_formula id id 2 3 (by norm_num) (by norm_num)⟩

/-- C5 counterexample: on the out-of-domain input successes = 5 > trials = 3,
`Beta.posterior` does not fail: it returns the pair (6, -1), whose second
component is outside the Beta domain. -/
theorem posterior_no_domain_error_cex :
    (3:ℝ) < 5 ∧ Beta.posterior (1, 1) (5, 3) = (6, -1) ∧ (-1:ℝ) ≤ 0 := by
  refine ⟨by norm_num, ?_, by norm_num⟩
  simp only [Beta.posterior]
  norm_num

/-- C5 amended: `posterior` performs no domain validation. Even on an input
whose combination leaves the valid domain (here trials < successes for Beta),
both families return their closed-form result instead of raising an error. -/
theorem posterior_no_validation (ap bp s t lp sp wp ld sd wd : ℝ)
    (hout : t < s) :
    Beta.posterior (ap, bp) (s, t) = (ap + s, bp + t - s) ∧
    Norm.posterior (lp, sp, wp) (ld, sd, wd) =
      (1 / (wp / sp ^ 2 + wd / sd ^ 2) *
        (wp / sp ^ 2 * lp + wd / sd ^ 2 * ld),
       Real.sqrt (1 / (wp / sp ^ 2 + wd / sd ^ 2))) :=
  ⟨rfl, rfl⟩

/-- Witness for the amended C5 at the counterexample input. -/
theorem posterior_no_validation_witness :
    (3:ℝ) < 5 ∧
    (Beta.posterior ((1:ℝ), 1) (5, 3) = (1 + 5, 1 + 3 - 5) ∧
     Norm.posterior ((0:ℝ), 1, 1) (1, 1, 1) =
       (1 / (1 / 1 ^ 2 + 1 / 1 ^ 2) * (1 / 1 ^ 2 * 0 + 1 / 1 ^ 2 * 1),
        Real.sqrt (1 / (1 / 1 ^ 2 + 1 / 1 ^ 2)))) :=
  ⟨by norm_num, posterior_no_validation 1 1 5 3 0 1 1 1 1 1 (by norm_num)⟩

/-- C3: Normal `posterior` implements the precision-weighted Gaussian update,
returning (var' · (inv_var_prior · loc_prior + inv_var_data · loc_data),
sqrt var') with var' = 1/(inv_var_prior + inv_var_data). -/
theorem norm_posterior_formula (lp sp wp ld sd wd : ℝ)
    (hsp : 0 < sp) (hwp : 0 < wp) (hsd : 0 < sd) (hwd : 0 < wd) :
    Norm.posterior (lp, sp, wp) (ld, sd, wd) =
      (1 / (wp / sp ^ 2 + wd / sd ^ 2) *
        (wp / sp ^ 2 * lp + wd / sd ^ 2 * ld),
       Real.sqrt (1 / (wp / sp ^ 2 + wd / sd ^ 2))) :=
  rfl

/-- Witness for C3: posterior((0,1,1), (1,1,1)) = (1/2, sqrt(1/2)). -/
theorem norm_posterior_formula_witness :
    (0:ℝ) < 1 ∧
    Norm.posterior (0, 1, 1) (1, 1, 1) = (1 / 2, Real.sqrt (1 / 2)) := by
  refine ⟨by norm_num, ?_⟩
  have h := norm_posterior_formula 0 1 1 1 1 1 (by norm_num) (by norm_num)
    (by norm_num) (by norm_num)
  rw [h]
  norm_num

/-- C6: Normal `moments` with log=True returns (log par1, (par2/par1)²)
unconditionally (the computation never aborts), and the warning fires exactly
when the oracle `norm.cdf(0, par1, par2)` exceeds EPSILON = 1e-4. -/
theorem norm_moments_log_formula (ncdf : ℝ → ℝ → ℝ → ℝ) (par1 par2 : ℝ)
    (h : 0 < par2) :
    (Norm.moments ncdf par1 par2 true).1 = (Real.log par1, (par2 / par1) ^ 2) ∧
    ((Norm.moments ncdf par1 par2 true).2 ↔ EPSILON < ncdf 0 par1 par2) :=
  ⟨rfl, Iff.rfl⟩

/-- Witness for C6 with a constant-1 cdf oracle at (par1, par2) = (1, 1),
where the warning condition holds and the result is still returned. -/
theorem norm_moments_log_formula_witness :
    (0:ℝ) < 1 ∧
    ((Norm.moments (fun _ _ _ => (1:ℝ)) 1 1 true).1 =
       (Real.log 1, ((1:ℝ) / 1) ^ 2) ∧
     ((Norm.moments (fun _ _ _ => (1:ℝ)) 1 1 true).2 ↔ EPSILON < 1)) :=
  ⟨by norm_num, norm_moments_log_formula (fun _ _ _ => (1:ℝ)) 1 1 (by norm_num)⟩

/-- C10: the two `risk` components both subtract from the same quadrature
estimate, so risk_A - risk_B = mean_B - mean_A for any family; with identical
parameters for both arms the two components coincide exactly. -/
theorem risk_components_difference :
    ∀ (F : Family) (a1 a2 b1 b2 : ℝ) (n : ℚ),
      ((risk F a1 a2 b1 b2 n).1 - (risk F a1 a2 b1 b2 n).2 =
        F.mean b1 b2 - F.mean a1 a2) ∧
      (risk F a1 a2 a1 a2 n).1 = (risk F a1 a2 a1 a2 n).2 := by
  intro F a1 a2 b1 b2 n
  refine ⟨?_, rfl⟩
  simp only [risk]
  ring

/-- C1: for both the Beta and the Normal family, `risk` returns the pair
(gq_est - mean_A, gq_est - mean_B), where gq_est is the double quadrature sum
Σ nodes_A·CDF_B(nodes_A)·weights_A + Σ nodes_B·CDF_A(nodes_B)·weights_B over
the rules gq(n, a_par1, a_par2) and gq(n, b_par1, b_par2). -/
theorem risk_gq_est_formula
    (jac : ℕ → ℝ → ℝ → List ℝ × List ℝ) (bcdf : ℝ → ℝ → ℝ → ℝ)
    (bmean : ℝ → ℝ → ℝ) (her : ℕ → List ℝ × List ℝ × ℝ)
    (ncdf : ℝ → ℝ → ℝ → ℝ) (nmean : ℝ → ℝ → ℝ)
    (a1 a2 b1 b2 : ℝ) (n : ℕ) (hn : 0 < n) :
    risk (Beta.family jac bcdf bmean) a1 a2 b1 b2 n =
      ((((Beta.gq jac n a1 a2).1.zip (Beta.gq jac n a1 a2).2).map
          (fun p => p.1 * bcdf p.1 b1 b2 * p.2)).sum +
       (((Beta.gq jac n b1 b2).1.zip (Beta.gq jac n b1 b2).2).map
          (fun p => p.1 * bcdf p.1 a1 a2 * p.2)).sum - bmean a1 a2,
       (((Beta.gq jac n a1 a2).1.zip (Beta.gq jac n a1 a2).2).map
          (fun p => p.1 * bcdf p.1 b1 b2 * p.2)).sum +
       (((Beta.gq jac n b1 b2).1.zip (Beta.gq jac n b1 b2).2).map
          (fun p => p.1 * bcdf p.1 a1 a2 * p.2)).sum - bmean b1 b2) ∧
    risk (Norm.family her ncdf nmean) a1 a2 b1 b2 n =
      ((((Norm.gq her n a1 a2).1.zip (Norm.gq her n a1 a2).2).map
          (fun p => p.1 * ncdf p.1 b1 b2 * p.2)).sum +
       (((Norm.gq her n b1 b2).1.zip (Norm.gq her n b1 b2).2).map
          (fun p => p.1 * ncdf p.1 a1 a2 * p.2)).sum - nmean a1 a2,
       (((Norm.gq her n a1 a2).1.zip (Norm.gq her n a1 a2).2).map
          (fun p => p.1 * ncdf p.1 b1 b2 * p.2)).sum +
       (((Norm.gq her n b1 b2).1.zip (Norm.gq her n b1 b2).2).map
          (fun p => p.1 * ncdf p.1 a1 a2 * p.2)).sum - nmean b1 b2) :=
  ⟨rfl, rfl⟩

/-- Witness for C1 with empty quadrature rules and zero cdf/mean oracles at
n = 1: both components reduce to the explicit pair (0, 0). -/
theorem risk_gq_est_formula_witness :
    0 < 1 ∧
    risk (Beta.family (fun _ _ _ => ([], []))
        (fun _ _ _ => 0) (fun _ _ => 0)) 0 0 0 0 ((1:ℕ):ℚ) = (0, 0) ∧
    risk (Norm.family (fun _ => ([], [], 1))
        (fun _ _ _ => 0) (fun _ _ => 0)) 0 0 0 0 ((1:ℕ):ℚ) = (0, 0) := by
  have h := risk_gq_est_formula (fun _ _ _ => ([], [])) (fun _ _ _ => 0)
    (fun _ _ => 0) (fun _ => ([], [], 1)) (fun _ _ _ => 0) (fun _ _ => 0)
    0 0 0 0 1 (by norm_num)
  refine ⟨by norm_num, ?_, ?_⟩
  · rw [h.1]
    simp [Beta.gq]
  · rw [h.2]
    simp [Norm.gq]

/-- C7 counterexample: with a valid prior (loc 0, scale 1, weight 1/100) and
valid data (loc 0, scale 1000, weight 1), the posterior variance is
1000000/10001 ≈ 99.99, which is not below min(1², 1000²) = 1. -/
theorem norm_posterior_variance_cex :
    ((0:ℝ) < 1 ∧ (0:ℝ) < 1 / 100 ∧ (0:ℝ) < 1000 ∧ (0:ℝ) < 1) ∧
    ¬ ((Norm.posterior (0, 1, 1 / 100) (0, 1000, 1)).2 ^ 2 <
        min ((1:ℝ) ^ 2) ((1000:ℝ) ^ 2)) := by
  refine ⟨⟨by norm_num, by norm_num, by norm_num, by norm_num⟩, ?_⟩
  have hv : (Norm.posterior ((0:ℝ), 1, 1 / 100) ((0:ℝ), 1000, 1)).2 ^ 2 =
      1 / (1 / 100 / 1 ^ 2 + 1 / 1000 ^ 2) := by
    show Real.sqrt (1 / ((1:ℝ) / 100 / 1 ^ 2 + 1 / 1000 ^ 2)) ^ 2 = _
    exact Real.sq_sqrt (by positivity)
  rw [hv, not_lt]
  have hmin : min ((1:ℝ) ^ 2) ((1000:ℝ) ^ 2) = 1 := by
    rw [min_eq_left (by norm_num)]
    norm_num
  rw [hmin]
  norm_num

/-- C7 amended: when both weights are at least 1 (e.g. observation counts),
the Normal posterior variance is strictly below the minimum of the prior and
data variances. -/
theorem norm_posterior_variance_lt_min (lp sp wp ld sd wd : ℝ)
    (hsp : 0 < sp) (hwp : 1 ≤ wp) (hsd : 0 < sd) (hwd : 1 ≤ wd) :
    (Norm.posterior (lp, sp, wp) (ld, sd, wd)).2 ^ 2 <
      min (sp ^ 2) (sd ^ 2) := by
  have hwp0 : (0:ℝ) < wp := lt_of_lt_of_le one_pos hwp
  have hwd0 : (0:ℝ) < wd := lt_of_lt_of_le one_pos hwd
  have hinv0 : 0 < wp / sp ^ 2 := div_pos hwp0 (by positivity)
  have hinvd : 0 < wd / sd ^ 2 := div_pos hwd0 (by positivity)
  have hsum : 0 < wp / sp ^ 2 + wd / sd ^ 2 := by linarith
  have hscale : (Norm.posterior (lp, sp, wp) (ld, sd, wd)).2 ^ 2 =
      1 / (wp / sp ^ 2 + wd / sd ^ 2) := by
    show Real.sqrt (1 / (wp / sp ^ 2 + wd / sd ^ 2)) ^ 2 = _
    exact Real.sq_sqrt (le_of_lt (one_div_pos.mpr hsum))
  rw [hscale, lt_min_iff]
  constructor
  · calc 1 / (wp / sp ^ 2 + wd / sd ^ 2) < 1 / (wp / sp ^ 2) :=
      one_div_lt_one_div_of_lt hinv0 (by linarith)
    _ = sp ^ 2 / wp := one_div_div wp (sp ^ 2)
    _ ≤ sp ^ 2 := div_le_self (by positivity) hwp
  · calc 1 / (wp / sp ^ 2 + wd / sd ^ 2) < 1 / (wd / sd ^ 2) :=
      one_div_lt_one_div_of_lt hinvd (by linarith)
    _ = sd ^ 2 / wd := one_div_div wd (sd ^ 2)
    _ ≤ sd ^ 2 := div_le_self (by positivity) hwd

/-- Witness for the amended C7 at prior (0,1,1), data (1,1,1):
posterior variance 1/2 < min(1, 1) = 1. -/
theorem norm_posterior_variance_lt_min_witness :
    ((0:ℝ) < 1 ∧ (1:ℝ) ≤ 1) ∧
    (Norm.posterior ((0:ℝ), 1, 1) ((1:ℝ), 1, 1)).2 ^ 2 <
      min ((1:ℝ) ^ 2) ((1:ℝ) ^ 2) :=
  ⟨⟨one_pos, le_refl 1⟩,
    norm_posterior_variance_lt_min 0 1 1 1 1 1 one_pos (le_refl 1) one_pos
      (le_refl 1)⟩

/-- C9: under the root-generator contracts, both families' `gq` return
exactly n nodes and n weights for a positive integer n, the weights sum to 1
after normalization, and a fractional order is truncated to its integer part
before the rule is built. -/
theorem gq_rule_size_and_normalization
    (jac : ℕ → ℝ → ℝ → List ℝ × List ℝ) (her : ℕ → List ℝ × List ℝ × ℝ)
    (hjac : JacContract jac) (hher : HermContract her)
    (n : ℕ) (hn : 0 < n) (q : ℚ) (p1 p2 : ℝ) :
    ((Beta.gq jac n p1 p2).1.length = n ∧
     (Beta.gq jac n p1 p2).2.length = n ∧
     (Beta.gq jac n p1 p2).2.sum = 1) ∧
    ((Norm.gq her n p1 p2).1.length = n ∧
     (Norm.gq her n p1 p2).2.length = n ∧
     (Norm.gq her n p1 p2).2.sum = 1) ∧
    (Beta.gq jac q p1 p2 = Beta.gq jac ((pyInt q : ℤ) : ℚ) p1 p2 ∧
     Norm.gq her q p1 p2 = Norm.gq her ((pyInt q : ℤ) : ℚ) p1 p2) := by
  have hB : Beta.gq jac (n : ℚ) p1 p2 = jac n (p1 + p2 - 1) p1 := by
    simp [Beta.gq, pyInt_natCast]
  have hN : Norm.gq her (n : ℚ) p1 p2 =
      ((her n).1.map (fun t => p2 * t + p1),
       (her n).2.1.map (fun t => t / (her n).2.2)) := by
    simp [Norm.gq, pyInt_natCast]
  obtain ⟨hj1, hj2, hj3⟩ := hjac n (p1 + p2 - 1) p1 hn
  obtain ⟨hh1, hh2, hh3, hh4⟩ := hher n hn
  refine ⟨⟨?_, ?_, ?_⟩, ⟨?_, ?_, ?_⟩, ?_, ?_⟩
  · rw [hB]; exact hj1
  · rw [hB]; exact hj2
  · rw [hB]; exact hj3
  · rw [hN]; simpa using hh1
  · rw [hN]; simpa using hh2
  · rw [hN]; rw [sum_map_div, hh3, div_self (ne_of_gt hh4)]
  · simp [Beta.gq, pyInt_intCast]
  · simp [Norm.gq, pyInt_intCast]

/-- Witness for C9 at n = 2 and fractional order 5/2, with concrete oracles
satisfying the contracts: the Jacobi oracle returns k nodes and k uniform
weights 1/k, the Hermite oracle k nodes, k unit weights and total mass k. -/
theorem gq_rule_size_and_normalization_witness :
    ((Beta.gq (fun k _ _ => (List.replicate k (0:ℝ),
        List.replicate k ((k:ℝ)⁻¹))) ((2:ℕ):ℚ) 3 4).1.length = 2 ∧
     (Beta.gq (fun k _ _ => (List.replicate k (0:ℝ),
        List.replicate k ((k:ℝ)⁻¹))) ((2:ℕ):ℚ) 3 4).2.length = 2 ∧
     (Beta.gq (fun k _ _ => (List.replicate k (0:ℝ),
        List.replicate k ((k:ℝ)⁻¹))) ((2:ℕ):ℚ) 3 4).2.sum = 1) ∧
    ((Norm.gq (fun k => (List.replicate k (0:ℝ), List.replicate k (1:ℝ),
        (k:ℝ))) ((2:ℕ):ℚ) 3 4).1.length = 2 ∧
     (Norm.gq (fun k => (List.replicate k (0:ℝ), List.replicate k (1:ℝ),
        (k:ℝ))) ((2:ℕ):ℚ) 3 4).2.length = 2 ∧
     (Norm.gq (fun k => (List.replicate k (0:ℝ), List.replicate k (1:ℝ),
        (k:ℝ))) ((2:ℕ):ℚ) 3 4).2.sum = 1) ∧
    (Beta.gq (fun k _ _ => (List.replicate k (0:ℝ),
        List.replicate k ((k:ℝ)⁻¹))) (5/2 : ℚ) 3 4 =
      Beta.gq (fun k _ _ => (List.replicate k (0:ℝ),
        List.replicate k ((k:ℝ)⁻¹))) ((pyInt (5/2 : ℚ) : ℤ) : ℚ) 3 4 ∧
     Norm.gq (fun k => (List.replicate k (0:ℝ), List.replicate k (1:ℝ),
        (k:ℝ))) (5/2 : ℚ) 3 4 =
      Norm.gq (fun k => (List.replicate k (0:ℝ), List.replicate k (1:ℝ),
        (k:ℝ))) ((pyInt (5/2 : ℚ) : ℤ) : ℚ) 3 4) :=
  gq_rule_size_and_normalization
    (fun k _ _ => (List.replicate k (0:ℝ), List.replicate k ((k:ℝ)⁻¹)))
    (fun k => (List.replicate k (0:ℝ), List.replicate k (1:ℝ), (k:ℝ)))
    (by
      intro m a b hm
      refine ⟨by simp, by simp, ?_⟩
      simp only [List.sum_replicate, nsmul_eq_mul]
      exact mul_inv_cancel₀ (Nat.cast_ne_zero.mpr hm.ne'))
    (by
      intro m hm
      refine ⟨by simp, by simp, ?_, ?_⟩
      · simp [List.sum_replicate, nsmul_eq_mul]
      · show (0:ℝ) < (m:ℝ)
        exact_mod_cast hm)
    2 (by norm_num) (5/2) 3 4

end Dists
